import Mathlib

/-!
Shallow embedding of the `glium_shapes` crate (procedural shape tessellators
for the glium OpenGL wrapper) and verification of a frozen list of claims
about it.

Modelling conventions:
* `f32` scalars are modelled by an arbitrary field `K` (instantiated at `ℝ`
  for geometric claims and at `ℚ` for executable witnesses).  The
  transcendental functions `sin`, `cos`, `sqrt` and the constant `π` used by
  the source are passed as explicit parameters (`sinF`, `cosF`, `sqrtF`,
  `piK`); real-number claims instantiate them with `Real.sin`, `Real.cos`,
  `Real.sqrt` and `Real.pi`.
* `cgmath` vectors and matrices are embedded as structures with one field
  per component; matrices are column-major exactly as in cgmath
  (`Mat3.x` is the first column, etc.).
* The sphere's sin/cos lookup tables (`u_tab`, `v_tab` in `sphere.rs`) are
  memoizations of a pure index function over `0..=divisions`; they are
  embedded as that index function (every access in the source is in range).
* Rust's `Vec` push loops are embedded as `List.range`/`flatMap`/`map`
  pipelines that emit the same vertices in the same order.
* `Result<_, ShapeCreationError>` becomes `Except ShapeCreationError _`.
  The GPU vertex-buffer factory (excluded collaborator) is modelled as an
  argument `alloc : List (Vertex K) → Except BufferCreationError β`.
  `CuboidBuilder::build` calls `.unwrap()` on the allocation result, so its
  embedding returns `Option β` where `none` models the panic.
-/

namespace GliumShapes

variable {K : Type} [Field K] [DecidableEq K]

/-- `cgmath::Vector3<f32>`. -/
structure Vec3 (K : Type) where
  x : K
  y : K
  z : K
deriving DecidableEq

attribute [ext] Vec3

/-- `cgmath::Vector4<f32>`. -/
structure Vec4 (K : Type) where
  x : K
  y : K
  z : K
  w : K
deriving DecidableEq

attribute [ext] Vec4

def Vec3.add (a b : Vec3 K) : Vec3 K := ⟨a.x + b.x, a.y + b.y, a.z + b.z⟩

def Vec3.sub (a b : Vec3 K) : Vec3 K := ⟨a.x - b.x, a.y - b.y, a.z - b.z⟩

def Vec3.smul (c : K) (v : Vec3 K) : Vec3 K := ⟨c * v.x, c * v.y, c * v.z⟩

def Vec3.dot (a b : Vec3 K) : K := a.x * b.x + a.y * b.y + a.z * b.z

/-- `cgmath` cross product of two 3-vectors. -/
def Vec3.cross (a b : Vec3 K) : Vec3 K :=
  ⟨a.y * b.z - a.z * b.y, a.z * b.x - a.x * b.z, a.x * b.y - a.y * b.x⟩

/-- `EuclideanVector::length`: `sqrt(dot(self, self))`. -/
def Vec3.magnitude (sqrtF : K → K) (v : Vec3 K) : K := sqrtF (v.dot v)

/-- `EuclideanVector::normalize`: `self * (1 / self.length())`. -/
def Vec3.normalize (sqrtF : K → K) (v : Vec3 K) : Vec3 K :=
  Vec3.smul (1 / Vec3.magnitude sqrtF v) v

def Vec3.extend (v : Vec3 K) (w : K) : Vec4 K := ⟨v.x, v.y, v.z, w⟩

def Vec3.zero : Vec3 K := ⟨0, 0, 0⟩

def Vec4.truncate (v : Vec4 K) : Vec3 K := ⟨v.x, v.y, v.z⟩

def Vec4.add (a b : Vec4 K) : Vec4 K := ⟨a.x + b.x, a.y + b.y, a.z + b.z, a.w + b.w⟩

def Vec4.smul (c : K) (v : Vec4 K) : Vec4 K := ⟨c * v.x, c * v.y, c * v.z, c * v.w⟩

/-- `cgmath::Point3::from_homogeneous`: `v.truncate() * (1 / v.w)`. -/
def fromHomogeneous (v : Vec4 K) : Vec3 K := Vec3.smul (1 / v.w) v.truncate

/-- `cgmath::Matrix3<f32>`, column-major: `x`, `y`, `z` are the columns. -/
structure Mat3 (K : Type) where
  x : Vec3 K
  y : Vec3 K
  z : Vec3 K
deriving DecidableEq

attribute [ext] Mat3

/-- `cgmath::Matrix4<f32>`, column-major: `x`, `y`, `z`, `w` are the columns. -/
structure Mat4 (K : Type) where
  x : Vec4 K
  y : Vec4 K
  z : Vec4 K
  w : Vec4 K
deriving DecidableEq

attribute [ext] Mat4

/-- Matrix-vector product: the linear combination of the columns. -/
def Mat3.mulVec (m : Mat3 K) (v : Vec3 K) : Vec3 K :=
  ((m.x.smul v.x).add ((m.y.smul v.y).add (m.z.smul v.z)))

/-- Matrix-matrix product (columns of the product are `a * (column of b)`). -/
def Mat3.mul (a b : Mat3 K) : Mat3 K := ⟨a.mulVec b.x, a.mulVec b.y, a.mulVec b.z⟩

def Mat3.identity : Mat3 K := ⟨⟨1, 0, 0⟩, ⟨0, 1, 0⟩, ⟨0, 0, 1⟩⟩

def Mat3.transpose (m : Mat3 K) : Mat3 K :=
  ⟨⟨m.x.x, m.y.x, m.z.x⟩, ⟨m.x.y, m.y.y, m.z.y⟩, ⟨m.x.z, m.y.z, m.z.z⟩⟩

/-- `cgmath::Matrix3::determinant` (cofactor expansion; `m.y.x` is column 1
row 0, matching cgmath's `self[1][0]`). -/
def Mat3.determinant (m : Mat3 K) : K :=
  m.x.x * (m.y.y * m.z.z - m.z.y * m.y.z) -
  m.y.x * (m.x.y * m.z.z - m.z.y * m.x.z) +
  m.z.x * (m.x.y * m.y.z - m.y.y * m.x.z)

/-- The value produced by `cgmath::SquareMatrix::invert` for `Matrix3` in
the invertible case: the transpose of the column-cross-product adjugate
divided by the determinant. -/
def Mat3.invertVal (m : Mat3 K) : Mat3 K :=
  (Mat3.mk ((m.y.cross m.z).smul (1 / m.determinant))
           ((m.z.cross m.x).smul (1 / m.determinant))
           ((m.x.cross m.y).smul (1 / m.determinant))).transpose

/-- `cgmath::SquareMatrix::invert` for `Matrix3`: `None` when the determinant
is zero (the source's approximate float-zero test is idealised to exact
equality), otherwise `invertVal`. -/
def Mat3.invert (m : Mat3 K) : Option (Mat3 K) :=
  if m.determinant = 0 then none else some m.invertVal

/-- `cgmath::Matrix3::from_angle_x` with the sine `s` and cosine `c` of the
angle already taken. -/
def Mat3.fromAngleX (s c : K) : Mat3 K := ⟨⟨1, 0, 0⟩, ⟨0, c, s⟩, ⟨0, -s, c⟩⟩

/-- `cgmath::Matrix3::from_angle_y`. -/
def Mat3.fromAngleY (s c : K) : Mat3 K := ⟨⟨c, 0, -s⟩, ⟨0, 1, 0⟩, ⟨s, 0, c⟩⟩

/-- `cgmath::Matrix3::from_angle_z`. -/
def Mat3.fromAngleZ (s c : K) : Mat3 K := ⟨⟨c, s, 0⟩, ⟨-s, c, 0⟩, ⟨0, 0, 1⟩⟩

def Mat4.mulVec (m : Mat4 K) (v : Vec4 K) : Vec4 K :=
  ((m.x.smul v.x).add ((m.y.smul v.y).add ((m.z.smul v.z).add (m.w.smul v.w))))

def Mat4.mul (a b : Mat4 K) : Mat4 K :=
  ⟨a.mulVec b.x, a.mulVec b.y, a.mulVec b.z, a.mulVec b.w⟩

def Mat4.identity : Mat4 K :=
  ⟨⟨1, 0, 0, 0⟩, ⟨0, 1, 0, 0⟩, ⟨0, 0, 1, 0⟩, ⟨0, 0, 0, 1⟩⟩

/-- `cgmath::Matrix4::from_nonuniform_scale`. -/
def Mat4.fromNonuniformScale (x y z : K) : Mat4 K :=
  ⟨⟨x, 0, 0, 0⟩, ⟨0, y, 0, 0⟩, ⟨0, 0, z, 0⟩, ⟨0, 0, 0, 1⟩⟩

/-- `cgmath::Matrix4::from_translation`. -/
def Mat4.fromTranslation (x y z : K) : Mat4 K :=
  ⟨⟨1, 0, 0, 0⟩, ⟨0, 1, 0, 0⟩, ⟨0, 0, 1, 0⟩, ⟨x, y, z, 1⟩⟩

/-- `cgmath::Matrix4::from(Matrix3)`: embed a 3x3 matrix as the linear part
of a 4x4 matrix. -/
def Mat4.fromMat3 (m : Mat3 K) : Mat4 K :=
  ⟨m.x.extend 0, m.y.extend 0, m.z.extend 0, ⟨0, 0, 0, 1⟩⟩

/-- The normal-matrix computation shared verbatim by all four builders:
`Matrix3::from_cols(m.x.truncate(), m.y.truncate(), m.z.truncate())
 .invert().unwrap_or(identity).transpose()`. -/
def normal_matrix (m : Mat4 K) : Mat3 K :=
  ((Mat3.mk m.x.truncate m.y.truncate m.z.truncate).invert.getD Mat3.identity).transpose

/-- The upper-left 3x3 block of a 4x4 matrix, as taken by the sources
(`from_cols` of the first three truncated columns). -/
def Mat4.upperLeft3 (m : Mat4 K) : Mat3 K :=
  Mat3.mk m.x.truncate m.y.truncate m.z.truncate

/-- `glium_shapes::vertex::Vertex`. -/
structure Vertex (K : Type) where
  position : Vec3 K
  normal : Vec3 K
  texcoord : K × K
deriving DecidableEq

/-- `glium::vertex::BufferCreationError` (external collaborator; constructors
abstracted). -/
inductive BufferCreationError where
  | outOfMemory
  | bufferTypeNotSupported
deriving DecidableEq

/-- `glium_shapes::errors::ShapeCreationError`. -/
inductive ShapeCreationError where
  | vertexBufferCreationError (err : BufferCreationError)
  | notEnoughDivisionsInU
  | notEnoughDivisionsInV
deriving DecidableEq

/-- Whether an `Except` value is a success. -/
def exceptIsOk {ε α : Type} : Except ε α → Bool
  | .ok _ => true
  | .error _ => false

/-- The list carried by a successful `Except`, or `[]` on error. -/
def exceptList {ε α : Type} : Except ε (List α) → List α
  | .ok vs => vs
  | .error _ => []

/-- Models `let mut v = Vector3::zero(); v[i] = val;` (used for cuboid face
normals and axes directions). -/
def axis_vector (i : ℕ) (val : K) : Vec3 K :=
  match i with
  | 0 => ⟨val, 0, 0⟩
  | 1 => ⟨0, val, 0⟩
  | _ => ⟨0, 0, val⟩

/-- `SphereBuilder` state: accumulated transform plus division counts. -/
structure SphereBuilder (K : Type) where
  matrix : Mat4 K
  u_divisions : ℕ
  v_divisions : ℕ

/-- `SphereBuilder::default`: identity transform, 24 u-divisions, 12
v-divisions. -/
def SphereBuilder.default : SphereBuilder K := ⟨Mat4.identity, 24, 12⟩

def SphereBuilder.with_divisions (b : SphereBuilder K) (u v : ℕ) : SphereBuilder K :=
  { b with u_divisions := u, v_divisions := v }

def SphereBuilder.scale (b : SphereBuilder K) (x y z : K) : SphereBuilder K :=
  { b with matrix := (Mat4.fromNonuniformScale x y z).mul b.matrix }

def SphereBuilder.translate (b : SphereBuilder K) (x y z : K) : SphereBuilder K :=
  { b with matrix := (Mat4.fromTranslation x y z).mul b.matrix }

def SphereBuilder.rotate_x (b : SphereBuilder K) (sinF cosF : K → K) (radians : K) :
    SphereBuilder K :=
  { b with matrix := (Mat4.fromMat3 (Mat3.fromAngleX (sinF radians) (cosF radians))).mul b.matrix }

def SphereBuilder.rotate_y (b : SphereBuilder K) (sinF cosF : K → K) (radians : K) :
    SphereBuilder K :=
  { b with matrix := (Mat4.fromMat3 (Mat3.fromAngleY (sinF radians) (cosF radians))).mul b.matrix }

def SphereBuilder.rotate_z (b : SphereBuilder K) (sinF cosF : K → K) (radians : K) :
    SphereBuilder K :=
  { b with matrix := (Mat4.fromMat3 (Mat3.fromAngleZ (sinF radians) (cosF radians))).mul b.matrix }

/-- `SphereBuilder::num_caps`. -/
def SphereBuilder.num_caps (_ : SphereBuilder K) : ℕ := 2

/-- `SphereBuilder::num_vertices_per_cap_face`. -/
def SphereBuilder.num_vertices_per_cap_face (_ : SphereBuilder K) : ℕ := 3

/-- `SphereBuilder::num_vertices_per_cap`. -/
def SphereBuilder.num_vertices_per_cap (b : SphereBuilder K) : ℕ :=
  b.num_vertices_per_cap_face * b.u_divisions

/-- `SphereBuilder::num_slices`. -/
def SphereBuilder.num_slices (b : SphereBuilder K) : ℕ :=
  b.v_divisions - b.num_caps

/-- `SphereBuilder::num_vertices_per_slice_face`. -/
def SphereBuilder.num_vertices_per_slice_face (_ : SphereBuilder K) : ℕ := 6

/-- `SphereBuilder::num_vertices_per_slice`. -/
def SphereBuilder.num_vertices_per_slice (b : SphereBuilder K) : ℕ :=
  b.num_vertices_per_slice_face * b.u_divisions

/-- `SphereBuilder::num_vertices`. -/
def SphereBuilder.num_vertices (b : SphereBuilder K) : ℕ :=
  b.num_vertices_per_slice * b.num_slices + b.num_vertices_per_cap * b.num_caps

/-- The `sin_cos` helper of `sphere.rs`: the pair `(sin val, cos val)`
(the source returns `[val.sin(), val.cos()]`, indexed `[0]` = sin,
`[1]` = cos; here `.1` = sin, `.2` = cos). -/
def sin_cos (sinF cosF : K → K) (val : K) : K × K := (sinF val, cosF val)

/-- The sphere's longitude lookup table `u_tab`, as the index function it
memoizes: entry `i` (for `i ≤ u_divisions`) is `sin_cos((i % U) * u_angle)`
with `u_angle = 2π/U`. -/
def sphere_u_tab (sinF cosF : K → K) (piK : K) (U : ℕ) (i : ℕ) : K × K :=
  sin_cos sinF cosF (((i % U : ℕ) : K) * (2 * piK / (U : K)))

/-- The sphere's latitude lookup table `v_tab`: entry `j` (for
`j ≤ v_divisions`) is `sin_cos(j * v_angle)` with `v_angle = π/V`. -/
def sphere_v_tab (sinF cosF : K → K) (piK : K) (V : ℕ) (j : ℕ) : K × K :=
  sin_cos sinF cosF ((j : K) * (piK / (V : K)))

/-- The fixed quad-to-triangle index table `[0, 1, 2, 2, 1, 3]` of
`sphere.rs` (`indices`), as an index function. -/
def sphere_indices (i : ℕ) : ℕ := [0, 1, 2, 2, 1, 3].getD i 0

/-- The four unit-sphere corner positions `verts` of cell `(u, v)`. -/
def sphere_corners (sinF cosF : K → K) (piK : K) (U V u v : ℕ) : ℕ → Vec3 K :=
  fun i =>
    let ut := sphere_u_tab sinF cosF piK U
    let vt := sphere_v_tab sinF cosF piK V
    match i with
    | 0 => ⟨(ut (u + 1)).2 * (vt v).1, (vt v).2, (ut (u + 1)).1 * (vt v).1⟩
    | 1 => ⟨(ut (u + 1)).2 * (vt (v + 1)).1, (vt (v + 1)).2, (ut (u + 1)).1 * (vt (v + 1)).1⟩
    | 2 => ⟨(ut u).2 * (vt v).1, (vt v).2, (ut u).1 * (vt v).1⟩
    | _ => ⟨(ut u).2 * (vt (v + 1)).1, (vt (v + 1)).2, (ut u).1 * (vt (v + 1)).1⟩

/-- The `lut_coords` table of cell `(u, v)`. -/
def sphere_lut_coords (u v : ℕ) : ℕ → ℕ × ℕ
  | 0 => (u + 1, v)
  | 1 => (u + 1, v + 1)
  | 2 => (u, v)
  | _ => (u, v + 1)

/-- The `(offset, count)` pair selecting which slots of the index table a
cell emits: `(3, 3)` for the top cap (`v == 0`), `(0, 3)` for the bottom cap
(`v == v_divisions - 1`), `(0, 6)` otherwise. -/
def sphere_offset_count (V v : ℕ) : ℕ × ℕ :=
  if v = 0 then (3, 3) else if v = V - 1 then (0, 3) else (0, 6)

/-- The unnormalized face normal `(v1 - v0) × (v2 - v0)` of the first
triangle of cell `(u, v)`. -/
def sphere_face_cross (sinF cosF : K → K) (piK : K) (U V u v : ℕ) : Vec3 K :=
  let verts := sphere_corners sinF cosF piK U V u v
  let offset := (sphere_offset_count V v).1
  let v0 := verts (sphere_indices offset)
  let v1 := verts (sphere_indices (offset + 1))
  let v2 := verts (sphere_indices (offset + 2))
  (v1.sub v0).cross (v2.sub v0)

/-- The vertex pushed for slot `s` (the loop variable `index` of the
source's emission loop) of cell `(u, v)`: position, transformed face normal
and texture coordinate. -/
def sphere_slot_vertex (sinF cosF sqrtF : K → K) (piK : K) (M : Mat4 K)
    (U V u v : ℕ) (s : ℕ) : Vertex K :=
  let verts := sphere_corners sinF cosF piK U V u v
  let nm := normal_matrix M
  let normal := Vec3.normalize sqrtF (sphere_face_cross sinF cosF piK U V u v)
  let i := sphere_indices s
  let uv := sphere_lut_coords u v i
  { position := fromHomogeneous (M.mulVec ((verts i).extend 1))
    normal := Vec3.normalize sqrtF (nm.mulVec normal)
    texcoord := (((uv.1 : ℕ) : K) / (U : K), ((uv.2 : ℕ) : K) / (V : K)) }

/-- One iteration of the sphere's inner emission loop: the vertices pushed
for cell `(u, v)`, i.e. slots `offset .. offset + count`. -/
def sphere_cell (sinF cosF sqrtF : K → K) (piK : K) (M : Mat4 K) (U V u v : ℕ) :
    List (Vertex K) :=
  let oc := sphere_offset_count V v
  (List.range oc.2).map fun k =>
    sphere_slot_vertex sinF cosF sqrtF piK M U V u v (oc.1 + k)

/-- `SphereBuilder::build_vertices`. -/
def SphereBuilder.build_vertices (b : SphereBuilder K) (sinF cosF sqrtF : K → K)
    (piK : K) : Except ShapeCreationError (List (Vertex K)) :=
  if b.u_divisions < 3 then .error .notEnoughDivisionsInU
  else if b.v_divisions < 2 then .error .notEnoughDivisionsInV
  else .ok ((List.range b.v_divisions).flatMap fun v =>
            (List.range b.u_divisions).flatMap fun u =>
              sphere_cell sinF cosF sqrtF piK b.matrix b.u_divisions b.v_divisions u v)

/-- `SphereBuilder::build`: build the vertices, then hand them to the
vertex-buffer factory, wrapping an allocation failure via the `From`
conversion into `ShapeCreationError`. -/
def SphereBuilder.build {β : Type} (b : SphereBuilder K) (sinF cosF sqrtF : K → K)
    (piK : K) (alloc : List (Vertex K) → Except BufferCreationError β) :
    Except ShapeCreationError β :=
  match b.build_vertices sinF cosF sqrtF piK with
  | .error e => .error e
  | .ok vs =>
    match alloc vs with
    | .error e => .error (.vertexBufferCreationError e)
    | .ok buf => .ok buf

/-- `CuboidBuilder` state: just the accumulated transform. -/
structure CuboidBuilder (K : Type) where
  matrix : Mat4 K

def CuboidBuilder.default : CuboidBuilder K := ⟨Mat4.identity⟩

def CuboidBuilder.scale (b : CuboidBuilder K) (x y z : K) : CuboidBuilder K :=
  ⟨(Mat4.fromNonuniformScale x y z).mul b.matrix⟩

def CuboidBuilder.translate (b : CuboidBuilder K) (x y z : K) : CuboidBuilder K :=
  ⟨(Mat4.fromTranslation x y z).mul b.matrix⟩

def CuboidBuilder.rotate_x (b : CuboidBuilder K) (sinF cosF : K → K) (radians : K) :
    CuboidBuilder K :=
  ⟨(Mat4.fromMat3 (Mat3.fromAngleX (sinF radians) (cosF radians))).mul b.matrix⟩

def CuboidBuilder.rotate_y (b : CuboidBuilder K) (sinF cosF : K → K) (radians : K) :
    CuboidBuilder K :=
  ⟨(Mat4.fromMat3 (Mat3.fromAngleY (sinF radians) (cosF radians))).mul b.matrix⟩

def CuboidBuilder.rotate_z (b : CuboidBuilder K) (sinF cosF : K → K) (radians : K) :
    CuboidBuilder K :=
  ⟨(Mat4.fromMat3 (Mat3.fromAngleZ (sinF radians) (cosF radians))).mul b.matrix⟩

/-- The cuboid's `index_lut` table (24 entries, face-major). -/
def cuboid_index_lut (i : ℕ) : ℕ :=
  [0, 4, 1, 5,
   6, 2, 7, 3,
   0, 2, 4, 6,
   5, 7, 1, 3,
   2, 0, 3, 1,
   4, 6, 5, 7].getD i 0

/-- The cuboid's `poly_lut` table `[0, 1, 2, 2, 1, 3]`. -/
def cuboid_poly_lut (i : ℕ) : ℕ := [0, 1, 2, 2, 1, 3].getD i 0

/-- The corner position decoded from a cuboid corner id: each coordinate is
`(bit-expression - 1) * 0.5` computed in `i32` then cast, exactly as in the
source. -/
def cuboid_corner (coord : ℕ) : Vec3 K :=
  ⟨((((coord &&& 2 : ℕ) : ℤ) - 1 : ℤ) : K) * (1 / 2),
   ((((coord &&& 1 : ℕ) * 2 : ℕ) : ℤ) - 1 : ℤ) * (1 / 2),
   (((((coord >>> 1) &&& 2 : ℕ) : ℤ) - 1 : ℤ) : K) * (1 / 2)⟩

/-- `CuboidBuilder::build_vertices`. -/
def CuboidBuilder.build_vertices (b : CuboidBuilder K) (sqrtF : K → K) :
    List (Vertex K) :=
  let nm := normal_matrix b.matrix
  (List.range 6).flatMap fun side =>
    let normal := axis_vector (side / 2) ((((side % 2) * 2 : ℕ) : K) - 1)
    (List.range 6).map fun vert =>
      let coord := cuboid_index_lut (cuboid_poly_lut vert + side * 4)
      { position := fromHomogeneous (b.matrix.mulVec ((cuboid_corner coord).extend 1))
        normal := Vec3.normalize sqrtF (nm.mulVec normal)
        texcoord := (((cuboid_poly_lut vert % 2 : ℕ) : K), ((cuboid_poly_lut vert / 2 : ℕ) : K)) }

/-- `CuboidBuilder::build`: unlike the other shapes, the source calls
`.unwrap()` on the vertex-buffer allocation, so an allocation failure panics
instead of being returned; `none` models that panic. -/
def CuboidBuilder.build {β : Type} (b : CuboidBuilder K) (sqrtF : K → K)
    (alloc : List (Vertex K) → Except BufferCreationError β) : Option β :=
  match alloc (b.build_vertices sqrtF) with
  | .ok buf => some buf
  | .error _ => none

/-- `QuadBuilder` state. -/
structure QuadBuilder (K : Type) where
  matrix : Mat4 K

def QuadBuilder.default : QuadBuilder K := ⟨Mat4.identity⟩

def QuadBuilder.scale (b : QuadBuilder K) (x y z : K) : QuadBuilder K :=
  ⟨(Mat4.fromNonuniformScale x y z).mul b.matrix⟩

def QuadBuilder.translate (b : QuadBuilder K) (x y z : K) : QuadBuilder K :=
  ⟨(Mat4.fromTranslation x y z).mul b.matrix⟩

def QuadBuilder.rotate_x (b : QuadBuilder K) (sinF cosF : K → K) (radians : K) :
    QuadBuilder K :=
  ⟨(Mat4.fromMat3 (Mat3.fromAngleX (sinF radians) (cosF radians))).mul b.matrix⟩

def QuadBuilder.rotate_y (b : QuadBuilder K) (sinF cosF : K → K) (radians : K) :
    QuadBuilder K :=
  ⟨(Mat4.fromMat3 (Mat3.fromAngleY (sinF radians) (cosF radians))).mul b.matrix⟩

def QuadBuilder.rotate_z (b : QuadBuilder K) (sinF cosF : K → K) (radians : K) :
    QuadBuilder K :=
  ⟨(Mat4.fromMat3 (Mat3.fromAngleZ (sinF radians) (cosF radians))).mul b.matrix⟩

/-- `QuadBuilder::build_vertices`. -/
def QuadBuilder.build_vertices (b : QuadBuilder K) (sqrtF : K → K) :
    Except ShapeCreationError (List (Vertex K)) :=
  let nm := normal_matrix b.matrix
  .ok ((List.range 4).map fun vert =>
    let u : K := ((vert / 2 : ℕ) : K)
    let v : K := ((vert % 2 : ℕ) : K)
    { position := fromHomogeneous (b.matrix.mulVec ⟨u * 2 - 1, v * 2 - 1, 0, 1⟩)
      normal := Vec3.normalize sqrtF (nm.mulVec ⟨0, 0, -1⟩)
      texcoord := (u, v) })

/-- `QuadBuilder::build`. -/
def QuadBuilder.build {β : Type} (b : QuadBuilder K) (sqrtF : K → K)
    (alloc : List (Vertex K) → Except BufferCreationError β) :
    Except ShapeCreationError β :=
  match b.build_vertices sqrtF with
  | .error e => .error e
  | .ok vs =>
    match alloc vs with
    | .error e => .error (.vertexBufferCreationError e)
    | .ok buf => .ok buf

/-- `AxesBuilder` state. -/
structure AxesBuilder (K : Type) where
  matrix : Mat4 K

def AxesBuilder.default : AxesBuilder K := ⟨Mat4.identity⟩

def AxesBuilder.scale (b : AxesBuilder K) (x y z : K) : AxesBuilder K :=
  ⟨(Mat4.fromNonuniformScale x y z).mul b.matrix⟩

def AxesBuilder.translate (b : AxesBuilder K) (x y z : K) : AxesBuilder K :=
  ⟨(Mat4.fromTranslation x y z).mul b.matrix⟩

def AxesBuilder.rotate_x (b : AxesBuilder K) (sinF cosF : K → K) (radians : K) :
    AxesBuilder K :=
  ⟨(Mat4.fromMat3 (Mat3.fromAngleX (sinF radians) (cosF radians))).mul b.matrix⟩

def AxesBuilder.rotate_y (b : AxesBuilder K) (sinF cosF : K → K) (radians : K) :
    AxesBuilder K :=
  ⟨(Mat4.fromMat3 (Mat3.fromAngleY (sinF radians) (cosF radians))).mul b.matrix⟩

def AxesBuilder.rotate_z (b : AxesBuilder K) (sinF cosF : K → K) (radians : K) :
    AxesBuilder K :=
  ⟨(Mat4.fromMat3 (Mat3.fromAngleZ (sinF radians) (cosF radians))).mul b.matrix⟩

/-- `AxesBuilder::build_vertices`. -/
def AxesBuilder.build_vertices (b : AxesBuilder K) (sqrtF : K → K) :
    Except ShapeCreationError (List (Vertex K)) :=
  let nm := normal_matrix b.matrix
  .ok ((List.range 3).flatMap fun axis =>
    (List.range 2).map fun vert =>
      let normal := axis_vector axis 1
      { position := fromHomogeneous (b.matrix.mulVec ((normal.smul ((vert : ℕ) : K)).extend 1))
        normal := Vec3.normalize sqrtF (nm.mulVec normal)
        texcoord := (((vert : ℕ) : K), ((axis : ℕ) : K)) })

/-- `AxesBuilder::build`. -/
def AxesBuilder.build {β : Type} (b : AxesBuilder K) (sqrtF : K → K)
    (alloc : List (Vertex K) → Except BufferCreationError β) :
    Except ShapeCreationError β :=
  match b.build_vertices sqrtF with
  | .error e => .error e
  | .ok vs =>
    match alloc vs with
    | .error e => .error (.vertexBufferCreationError e)
    | .ok buf => .ok buf

/-- A trivial stand-in for the transcendental-function parameters when
instantiating the embedding at `ℚ` for concrete evaluation: the vertex
counts, error paths, index tables and texture coordinates under scrutiny do
not depend on these functions' values. -/
def qZero : ℚ → ℚ := fun _ => 0

/-- C4: each of scale / translate / rotate_x / rotate_y / rotate_z replaces
the stored matrix of any builder with the operation's matrix left-multiplied
onto the current matrix, is total in its scalar inputs, and changes no other
builder state (for the sphere: both division counts are preserved by every
operation). -/
theorem claim_C4_transform_composition {K : Type} [Field K]
    (sinF cosF : K → K) (x y z radians : K) :
    (∀ b : SphereBuilder K,
      (b.scale x y z).matrix = (Mat4.fromNonuniformScale x y z).mul b.matrix ∧
      (b.translate x y z).matrix = (Mat4.fromTranslation x y z).mul b.matrix ∧
      (b.rotate_x sinF cosF radians).matrix =
        (Mat4.fromMat3 (Mat3.fromAngleX (sinF radians) (cosF radians))).mul b.matrix ∧
      (b.rotate_y sinF cosF radians).matrix =
        (Mat4.fromMat3 (Mat3.fromAngleY (sinF radians) (cosF radians))).mul b.matrix ∧
      (b.rotate_z sinF cosF radians).matrix =
        (Mat4.fromMat3 (Mat3.fromAngleZ (sinF radians) (cosF radians))).mul b.matrix ∧
      (b.scale x y z).u_divisions = b.u_divisions ∧
      (b.scale x y z).v_divisions = b.v_divisions ∧
      (b.translate x y z).u_divisions = b.u_divisions ∧
      (b.translate x y z).v_divisions = b.v_divisions ∧
      (b.rotate_x sinF cosF radians).u_divisions = b.u_divisions ∧
      (b.rotate_x sinF cosF radians).v_divisions = b.v_divisions ∧
      (b.rotate_y sinF cosF radians).u_divisions = b.u_divisions ∧
      (b.rotate_y sinF cosF radians).v_divisions = b.v_divisions ∧
      (b.rotate_z sinF cosF radians).u_divisions = b.u_divisions ∧
      (b.rotate_z sinF cosF radians).v_divisions = b.v_divisions) ∧
    (∀ b : CuboidBuilder K,
      (b.scale x y z).matrix = (Mat4.fromNonuniformScale x y z).mul b.matrix ∧
      (b.translate x y z).matrix = (Mat4.fromTranslation x y z).mul b.matrix ∧
      (b.rotate_x sinF cosF radians).matrix =
        (Mat4.fromMat3 (Mat3.fromAngleX (sinF radians) (cosF radians))).mul b.matrix ∧
      (b.rotate_y sinF cosF radians).matrix =
        (Mat4.fromMat3 (Mat3.fromAngleY (sinF radians) (cosF radians))).mul b.matrix ∧
      (b.rotate_z sinF cosF radians).matrix =
        (Mat4.fromMat3 (Mat3.fromAngleZ (sinF radians) (cosF radians))).mul b.matrix) ∧
    (∀ b : QuadBuilder K,
      (b.scale x y z).matrix = (Mat4.fromNonuniformScale x y z).mul b.matrix ∧
      (b.translate x y z).matrix = (Mat4.fromTranslation x y z).mul b.matrix ∧
      (b.rotate_x sinF cosF radians).matrix =
        (Mat4.fromMat3 (Mat3.fromAngleX (sinF radians) (cosF radians))).mul b.matrix ∧
      (b.rotate_y sinF cosF radians).matrix =
        (Mat4.fromMat3 (Mat3.fromAngleY (sinF radians) (cosF radians))).mul b.matrix ∧
      (b.rotate_z sinF cosF radians).matrix =
        (Mat4.fromMat3 (Mat3.fromAngleZ (sinF radians) (cosF radians))).mul b.matrix) ∧
    (∀ b : AxesBuilder K,
      (b.scale x y z).matrix = (Mat4.fromNonuniformScale x y z).mul b.matrix ∧
      (b.translate x y z).matrix = (Mat4.fromTranslation x y z).mul b.matrix ∧
      (b.rotate_x sinF cosF radians).matrix =
        (Mat4.fromMat3 (Mat3.fromAngleX (sinF radians) (cosF radians))).mul b.matrix ∧
      (b.rotate_y sinF cosF radians).matrix =
        (Mat4.fromMat3 (Mat3.fromAngleY (sinF radians) (cosF radians))).mul b.matrix ∧
      (b.rotate_z sinF cosF radians).matrix =
        (Mat4.fromMat3 (Mat3.fromAngleZ (sinF radians) (cosF radians))).mul b.matrix) :=
  ⟨fun _ => ⟨rfl, rfl, rfl, rfl, rfl, rfl, rfl, rfl, rfl, rfl, rfl, rfl, rfl, rfl, rfl⟩,
   fun _ => ⟨rfl, rfl, rfl, rfl, rfl⟩,
   fun _ => ⟨rfl, rfl, rfl, rfl, rfl⟩,
   fun _ => ⟨rfl, rfl, rfl, rfl, rfl⟩⟩

/-- C2: sphere tessellation returns the U-divisions error whenever
`u_divisions < 3`, the V-divisions error whenever `u_divisions ≥ 3` and
`v_divisions < 2` — in both cases producing no vertices — and succeeds for
every valid sphere configuration; quad and axes tessellation never fail
(cuboid tessellation is a total function into vertex lists by its type). -/
theorem claim_C2_division_errors {K : Type} [Field K] [DecidableEq K]
    (sinF cosF sqrtF : K → K) (piK : K) :
    (∀ b : SphereBuilder K, b.u_divisions < 3 →
        b.build_vertices sinF cosF sqrtF piK = .error .notEnoughDivisionsInU) ∧
    (∀ b : SphereBuilder K, 3 ≤ b.u_divisions → b.v_divisions < 2 →
        b.build_vertices sinF cosF sqrtF piK = .error .notEnoughDivisionsInV) ∧
    (∀ b : SphereBuilder K, 3 ≤ b.u_divisions → 2 ≤ b.v_divisions →
        ∃ vs, b.build_vertices sinF cosF sqrtF piK = .ok vs) ∧
    (∀ b : QuadBuilder K, ∃ vs, b.build_vertices sqrtF = .ok vs) ∧
    (∀ b : AxesBuilder K, ∃ vs, b.build_vertices sqrtF = .ok vs) := by
  refine ⟨fun b h => ?_, fun b h1 h2 => ?_, fun b h1 h2 => ?_, fun b => ⟨_, rfl⟩,
    fun b => ⟨_, rfl⟩⟩
  · simp [SphereBuilder.build_vertices, h]
  · simp [SphereBuilder.build_vertices, h2, Nat.not_lt.mpr h1]
  · exact ⟨(List.range b.v_divisions).flatMap fun v =>
        (List.range b.u_divisions).flatMap fun u =>
          sphere_cell sinF cosF sqrtF piK b.matrix b.u_divisions b.v_divisions u v,
      by simp [SphereBuilder.build_vertices, Nat.not_lt.mpr h1, Nat.not_lt.mpr h2]⟩

/-- Witness for C2 at concrete rational inputs: a 2-u-division builder fails
with the U error, a (3, 1) builder fails with the V error, and a (3, 2)
builder succeeds. -/
theorem claim_C2_division_errors_witness :
    ((SphereBuilder.mk Mat4.identity 2 5 : SphereBuilder ℚ).build_vertices
        qZero qZero qZero 0 = .error .notEnoughDivisionsInU) ∧
    ((SphereBuilder.mk Mat4.identity 3 1 : SphereBuilder ℚ).build_vertices
        qZero qZero qZero 0 = .error .notEnoughDivisionsInV) ∧
    (∃ vs, (SphereBuilder.mk Mat4.identity 3 2 : SphereBuilder ℚ).build_vertices
        qZero qZero qZero 0 = .ok vs) :=
  ⟨(claim_C2_division_errors qZero qZero qZero 0).1 _ (by decide),
   (claim_C2_division_errors qZero qZero qZero 0).2.1 _ (by decide) (by decide),
   (claim_C2_division_errors qZero qZero qZero 0).2.2.1 _ (by decide) (by decide)⟩

/-- Each sphere cell emits exactly `count` vertices, where `count` is the
second component of its `(offset, count)` pair. -/
theorem sphere_cell_length {K : Type} [Field K] [DecidableEq K]
    (sinF cosF sqrtF : K → K) (piK : K) (M : Mat4 K) (U V u v : ℕ) :
    (sphere_cell sinF cosF sqrtF piK M U V u v).length = (sphere_offset_count V v).2 := by
  simp [sphere_cell]

/-- One latitude band emits `u_divisions * count` vertices. -/
theorem sphere_row_length {K : Type} [Field K] [DecidableEq K]
    (sinF cosF sqrtF : K → K) (piK : K) (M : Mat4 K) (U V v : ℕ) :
    ((List.range U).flatMap fun u =>
        sphere_cell sinF cosF sqrtF piK M U V u v).length =
      U * (sphere_offset_count V v).2 := by
  rw [List.length_flatMap]
  have h : (List.map (List.length ∘ fun u => sphere_cell sinF cosF sqrtF piK M U V u v)
      (List.range U)) = List.replicate U (sphere_offset_count V v).2 := by
    rw [show (List.length ∘ fun u => sphere_cell sinF cosF sqrtF piK M U V u v)
          = fun _ => (sphere_offset_count V v).2 by
        funext u; exact sphere_cell_length sinF cosF sqrtF piK M U V u v]
    rw [List.map_const', List.length_range]
  rw [h, List.sum_replicate, smul_eq_mul]

/-- The sphere's full emission loop produces exactly
`6 * U * (V - 2) + 3 * U * 2` vertices when `V ≥ 2`. -/
theorem sphere_total_length {K : Type} [Field K] [DecidableEq K]
    (sinF cosF sqrtF : K → K) (piK : K) (M : Mat4 K) (U V : ℕ) (hV : 2 ≤ V) :
    ((List.range V).flatMap fun v => (List.range U).flatMap fun u =>
        sphere_cell sinF cosF sqrtF piK M U V u v).length =
      6 * U * (V - 2) + 3 * U * 2 := by
  obtain ⟨W, rfl⟩ : ∃ W, V = W + 2 := ⟨V - 2, by omega⟩
  rw [show W + 2 = (W + 1) + 1 by rfl, List.range_succ_eq_map, List.range_succ,
    List.map_append, List.flatMap_cons, List.flatMap_append, List.length_append,
    List.length_append]
  have h0 : sphere_offset_count (W + 1 + 1) 0 = (3, 3) := by
    simp [sphere_offset_count]
  have hlast : sphere_offset_count (W + 1 + 1) (W + 1) = (0, 3) := by
    simp [sphere_offset_count]
  have hmid : ((List.map Nat.succ (List.range W)).flatMap fun v =>
      (List.range U).flatMap fun u =>
        sphere_cell sinF cosF sqrtF piK M U (W + 1 + 1) u v).length = W * (U * 6) := by
    rw [List.length_flatMap, List.map_map]
    have h : (List.map ((List.length ∘ fun v => (List.range U).flatMap fun u =>
        sphere_cell sinF cosF sqrtF piK M U (W + 1 + 1) u v) ∘ Nat.succ)
          (List.range W)) = List.replicate W (U * 6) := by
      rw [List.map_congr_left (g := fun _ => U * 6) ?_, List.map_const', List.length_range]
      intro i hi
      rw [List.mem_range] at hi
      have hc : sphere_offset_count (W + 1 + 1) (Nat.succ i) = (0, 6) := by
        have h1 : Nat.succ i ≠ 0 := Nat.succ_ne_zero i
        have h2 : Nat.succ i ≠ W + 1 + 1 - 1 := by omega
        unfold sphere_offset_count
        rw [if_neg h1, if_neg h2]
      simp only [Function.comp]
      rw [sphere_row_length, hc]
    rw [h, List.sum_replicate, smul_eq_mul]
  rw [hmid]
  simp only [List.map_cons, List.map_nil, List.flatMap_nil, List.flatMap_cons,
    List.append_nil, List.length_append]
  rw [sphere_row_length, sphere_row_length, h0, hlast]
  have hW : W + 1 + 1 - 2 = W := by omega
  rw [hW]
  ring

/-- `num_vertices` unfolds to the closed formula of the spec. -/
theorem num_vertices_formula {K : Type} (b : SphereBuilder K) :
    b.num_vertices = 6 * b.u_divisions * (b.v_divisions - 2) + 3 * b.u_divisions * 2 := by
  simp only [SphereBuilder.num_vertices, SphereBuilder.num_vertices_per_slice,
    SphereBuilder.num_slices, SphereBuilder.num_vertices_per_cap, SphereBuilder.num_caps,
    SphereBuilder.num_vertices_per_slice_face, SphereBuilder.num_vertices_per_cap_face]

/-- C1: for every sphere builder with `u_divisions ≥ 3` and
`v_divisions ≥ 2`, tessellation succeeds and emits exactly `num_vertices`
vertices, which equals `6·U·(V-2) + 3·U·2` — so the source's
`assert!(vertices.len() == total_num_verts)` can never fail. -/
theorem claim_C1_sphere_vertex_count {K : Type} [Field K] [DecidableEq K]
    (sinF cosF sqrtF : K → K) (piK : K) (b : SphereBuilder K)
    (hU : 3 ≤ b.u_divisions) (hV : 2 ≤ b.v_divisions) :
    ∃ vs, b.build_vertices sinF cosF sqrtF piK = .ok vs ∧
      vs.length = b.num_vertices ∧
      b.num_vertices = 6 * b.u_divisions * (b.v_divisions - 2) + 3 * b.u_divisions * 2 := by
  refine ⟨(List.range b.v_divisions).flatMap fun v =>
      (List.range b.u_divisions).flatMap fun u =>
        sphere_cell sinF cosF sqrtF piK b.matrix b.u_divisions b.v_divisions u v,
    by simp [SphereBuilder.build_vertices, Nat.not_lt.mpr hU, Nat.not_lt.mpr hV],
    ?_, num_vertices_formula b⟩
  rw [num_vertices_formula b]
  exact sphere_total_length sinF cosF sqrtF piK b.matrix b.u_divisions b.v_divisions hV

/-- Witness for C1: the minimal valid sphere (3 u-divisions, 2 v-divisions)
emits exactly its `num_vertices` (18). -/
theorem claim_C1_sphere_vertex_count_witness :
    (3 ≤ (SphereBuilder.mk Mat4.identity 3 2 : SphereBuilder ℚ).u_divisions) ∧
    (2 ≤ (SphereBuilder.mk Mat4.identity 3 2 : SphereBuilder ℚ).v_divisions) ∧
    ∃ vs, (SphereBuilder.mk Mat4.identity 3 2 : SphereBuilder ℚ).build_vertices
        qZero qZero qZero 0 = .ok vs ∧
      vs.length = (SphereBuilder.mk Mat4.identity 3 2 : SphereBuilder ℚ).num_vertices ∧
      (SphereBuilder.mk Mat4.identity 3 2 : SphereBuilder ℚ).num_vertices =
        6 * 3 * (2 - 2) + 3 * 3 * 2 :=
  ⟨by decide, by decide,
    claim_C1_sphere_vertex_count qZero qZero qZero 0 _ (by decide) (by decide)⟩

/-- C5: at default configuration the embedding emits exactly 6 vertices for
the axes, 4 for the quad, 36 for the cuboid, and 1584 for the sphere
(24 × 12 divisions), over the real numbers with the real trigonometric
functions. -/
theorem claim_C5_default_vertex_counts :
    (exceptList ((AxesBuilder.default (K := ℝ)).build_vertices Real.sqrt)).length = 6 ∧
    (exceptList ((QuadBuilder.default (K := ℝ)).build_vertices Real.sqrt)).length = 4 ∧
    ((CuboidBuilder.default (K := ℝ)).build_vertices Real.sqrt).length = 36 ∧
    (exceptList ((SphereBuilder.default (K := ℝ)).build_vertices
        Real.sin Real.cos Real.sqrt Real.pi)).length = 1584 := by
  refine ⟨rfl, rfl, rfl, ?_⟩
  have hok : (SphereBuilder.default (K := ℝ)).build_vertices
      Real.sin Real.cos Real.sqrt Real.pi =
      .ok ((List.range 12).flatMap fun v => (List.range 24).flatMap fun u =>
        sphere_cell Real.sin Real.cos Real.sqrt Real.pi Mat4.identity 24 12 u v) := by
    simp [SphereBuilder.build_vertices, SphereBuilder.default]
  rw [hok]
  have h := sphere_total_length Real.sin Real.cos Real.sqrt Real.pi Mat4.identity 24 12
    (by norm_num)
  simp only [exceptList]
  rw [h]

set_option maxHeartbeats 2000000 in
/-- C9: transform operations are not commutative — for the cuboid,
`scale(2,1,1).translate(1,0,0)` and `translate(1,0,0).scale(2,1,1)` produce
different vertex position sequences. -/
theorem claim_C9_transform_noncommutative :
    ∃ b : CuboidBuilder ℚ,
      (((b.scale 2 1 1).translate 1 0 0).build_vertices qZero).map Vertex.position ≠
      (((b.translate 1 0 0).scale 2 1 1).build_vertices qZero).map Vertex.position := by
  refine ⟨CuboidBuilder.default, fun h => ?_⟩
  have h0 := congrArg (fun l => (l.getD 0 Vec3.zero).x) h
  norm_num [CuboidBuilder.build_vertices, CuboidBuilder.scale, CuboidBuilder.translate,
    CuboidBuilder.default, Mat4.fromNonuniformScale, Mat4.fromTranslation, Mat4.identity,
    Mat4.mul, Mat4.mulVec, Vec4.smul, Vec4.add, cuboid_corner, cuboid_index_lut,
    cuboid_poly_lut, fromHomogeneous, Vec4.truncate, Vec3.smul, Vec3.extend,
    normal_matrix, Mat3.invert, Mat3.determinant, Mat3.transpose, Vec3.cross,
    axis_vector, Vec3.normalize, Vec3.magnitude, Vec3.dot, qZero, Vec3.zero,
    List.range_succ_eq_map, List.flatMap_cons, List.map_map] at h0

/-- C3: for every valid sphere builder, tessellation is the concatenation,
in cell order, of the per-cell emissions; a `v = 0` cell emits exactly the
3 vertices of slots 3, 4, 5 of the fixed index table `[0,1,2,2,1,3]`, a
`v = v_divisions - 1` cell (with `v ≠ 0`) emits exactly the 3 vertices of
slots 0, 1, 2, and every other cell emits all 6 slots in table order. -/
theorem claim_C3_sphere_cap_slots {K : Type} [Field K] [DecidableEq K]
    (sinF cosF sqrtF : K → K) (piK : K) (b : SphereBuilder K)
    (hU : 3 ≤ b.u_divisions) (hV : 2 ≤ b.v_divisions) :
    (b.build_vertices sinF cosF sqrtF piK =
      .ok ((List.range b.v_divisions).flatMap fun v =>
        (List.range b.u_divisions).flatMap fun u =>
          sphere_cell sinF cosF sqrtF piK b.matrix b.u_divisions b.v_divisions u v)) ∧
    (∀ u v : ℕ,
      (v = 0 →
        sphere_cell sinF cosF sqrtF piK b.matrix b.u_divisions b.v_divisions u v =
          [3, 4, 5].map
            (sphere_slot_vertex sinF cosF sqrtF piK b.matrix b.u_divisions b.v_divisions u v)) ∧
      (v ≠ 0 → v = b.v_divisions - 1 →
        sphere_cell sinF cosF sqrtF piK b.matrix b.u_divisions b.v_divisions u v =
          [0, 1, 2].map
            (sphere_slot_vertex sinF cosF sqrtF piK b.matrix b.u_divisions b.v_divisions u v)) ∧
      (v ≠ 0 → v ≠ b.v_divisions - 1 →
        sphere_cell sinF cosF sqrtF piK b.matrix b.u_divisions b.v_divisions u v =
          [0, 1, 2, 3, 4, 5].map
            (sphere_slot_vertex sinF cosF sqrtF piK b.matrix b.u_divisions b.v_divisions u v))) := by
  refine ⟨by simp [SphereBuilder.build_vertices, Nat.not_lt.mpr hU, Nat.not_lt.mpr hV],
    fun u v => ⟨fun h0 => ?_, fun h0 hlast => ?_, fun h0 hlast => ?_⟩⟩
  · subst h0
    rfl
  · subst hlast
    have hc : sphere_offset_count b.v_divisions (b.v_divisions - 1) = (0, 3) := by
      unfold sphere_offset_count
      rw [if_neg h0, if_pos rfl]
    simp only [sphere_cell, hc]
    rfl
  · have hc : sphere_offset_count b.v_divisions v = (0, 6) := by
      unfold sphere_offset_count
      rw [if_neg h0, if_neg hlast]
    simp only [sphere_cell, hc]
    rfl

/-- Witness for C3: the minimal valid sphere builder at rational scalars. -/
theorem claim_C3_sphere_cap_slots_witness :
    (3 ≤ (SphereBuilder.mk Mat4.identity 3 2 : SphereBuilder ℚ).u_divisions) ∧
    (2 ≤ (SphereBuilder.mk Mat4.identity 3 2 : SphereBuilder ℚ).v_divisions) ∧
    ((SphereBuilder.mk Mat4.identity 3 2 : SphereBuilder ℚ).build_vertices
        qZero qZero qZero 0 =
      .ok ((List.range 2).flatMap fun v => (List.range 3).flatMap fun u =>
        sphere_cell qZero qZero qZero 0 Mat4.identity 3 2 u v)) ∧
    (sphere_cell qZero qZero qZero 0 Mat4.identity 3 2 1 0 =
      [3, 4, 5].map (sphere_slot_vertex qZero qZero qZero 0 Mat4.identity 3 2 1 0)) ∧
    (sphere_cell qZero qZero qZero 0 Mat4.identity 3 2 1 1 =
      [0, 1, 2].map (sphere_slot_vertex qZero qZero qZero 0 Mat4.identity 3 2 1 1)) := by
  have h := claim_C3_sphere_cap_slots qZero qZero qZero 0
    (SphereBuilder.mk Mat4.identity 3 2 : SphereBuilder ℚ) (by decide) (by decide)
  exact ⟨by decide, by decide, h.1, (h.2 1 0).1 rfl, ((h.2 1 1).2.1 (by decide) rfl)⟩

/-- C7 (amended): for the sphere, quad and axes builders a failed
vertex-buffer allocation during `build` is returned to the caller unchanged,
wrapped as `VertexBufferCreationError`, with no retry; the cuboid builder
instead unwraps the allocation result, so an allocation failure panics
(modelled by `none`) and no error value is returned. -/
theorem claim_C7_alloc_error_propagation {K : Type} [Field K] [DecidableEq K]
    {β : Type} (sinF cosF sqrtF : K → K) (piK : K)
    (alloc : List (Vertex K) → Except BufferCreationError β) (e : BufferCreationError) :
    (∀ (b : SphereBuilder K) (vs : List (Vertex K)),
      b.build_vertices sinF cosF sqrtF piK = .ok vs → alloc vs = .error e →
      b.build sinF cosF sqrtF piK alloc = .error (.vertexBufferCreationError e)) ∧
    (∀ (b : QuadBuilder K) (vs : List (Vertex K)),
      b.build_vertices sqrtF = .ok vs → alloc vs = .error e →
      b.build sqrtF alloc = .error (.vertexBufferCreationError e)) ∧
    (∀ (b : AxesBuilder K) (vs : List (Vertex K)),
      b.build_vertices sqrtF = .ok vs → alloc vs = .error e →
      b.build sqrtF alloc = .error (.vertexBufferCreationError e)) ∧
    (∀ b : CuboidBuilder K,
      alloc (b.build_vertices sqrtF) = .error e → b.build sqrtF alloc = none) := by
  refine ⟨fun b vs hok halloc => ?_, fun b vs hok halloc => ?_,
    fun b vs hok halloc => ?_, fun b halloc => ?_⟩
  · simp [SphereBuilder.build, hok, halloc]
  · simp [QuadBuilder.build, hok, halloc]
  · simp [AxesBuilder.build, hok, halloc]
  · simp [CuboidBuilder.build, halloc]

/-- Witness for C7 (amended): with an always-failing allocator, the quad
build returns the wrapped allocation error and the cuboid build panics. -/
theorem claim_C7_alloc_error_propagation_witness :
    (∃ vs, (QuadBuilder.default (K := ℚ)).build_vertices qZero = .ok vs ∧
      (QuadBuilder.default (K := ℚ)).build qZero
          (fun _ => (.error .outOfMemory : Except BufferCreationError Unit)) =
        .error (.vertexBufferCreationError .outOfMemory)) ∧
    (CuboidBuilder.default (K := ℚ)).build qZero
        (fun _ => (.error .outOfMemory : Except BufferCreationError Unit)) = none :=
  ⟨⟨_, rfl,
    (claim_C7_alloc_error_propagation qZero qZero qZero 0
        (fun _ => (.error .outOfMemory : Except BufferCreationError Unit))
        .outOfMemory).2.1 _ _ rfl rfl⟩,
   (claim_C7_alloc_error_propagation qZero qZero qZero 0
        (fun _ => (.error .outOfMemory : Except BufferCreationError Unit))
        .outOfMemory).2.2.2 _ rfl⟩

/-- Counterexample closing C7 as stated: on allocation failure the cuboid's
`build` does not return the wrapped allocation error to the caller — the
source calls `.unwrap()`, which panics, modelled here by `none` (the result
type of `CuboidBuilder::build` has no error case at all). -/
theorem claim_C7_cuboid_build_panics :
    (CuboidBuilder.default (K := ℚ)).build qZero
        (fun _ => (.error .outOfMemory : Except BufferCreationError Unit)) = none := rfl

/-- The texture coordinates emitted by a sphere cell do not depend on the
accumulated transform matrix. -/
theorem sphere_cell_map_texcoord {K : Type} [Field K] [DecidableEq K]
    (sinF cosF sqrtF : K → K) (piK : K) (m m' : Mat4 K) (U V u v : ℕ) :
    (sphere_cell sinF cosF sqrtF piK m U V u v).map Vertex.texcoord =
    (sphere_cell sinF cosF sqrtF piK m' U V u v).map Vertex.texcoord := by
  simp only [sphere_cell, List.map_map]
  exact List.map_congr_left fun k _ => rfl

/-- C10: the sequence of texture coordinates emitted by tessellation is
independent of the accumulated transform, for all four shapes (for the
sphere, with equal division counts). -/
theorem claim_C10_texcoords_transform_independent {K : Type} [Field K] [DecidableEq K]
    (sinF cosF sqrtF : K → K) (piK : K) :
    (∀ (m m' : Mat4 K) (U V : ℕ),
      Except.map (List.map Vertex.texcoord)
        ((SphereBuilder.mk m U V).build_vertices sinF cosF sqrtF piK) =
      Except.map (List.map Vertex.texcoord)
        ((SphereBuilder.mk m' U V).build_vertices sinF cosF sqrtF piK)) ∧
    (∀ m m' : Mat4 K,
      ((CuboidBuilder.mk m).build_vertices sqrtF).map Vertex.texcoord =
      ((CuboidBuilder.mk m').build_vertices sqrtF).map Vertex.texcoord) ∧
    (∀ m m' : Mat4 K,
      Except.map (List.map Vertex.texcoord) ((QuadBuilder.mk m).build_vertices sqrtF) =
      Except.map (List.map Vertex.texcoord) ((QuadBuilder.mk m').build_vertices sqrtF)) ∧
    (∀ m m' : Mat4 K,
      Except.map (List.map Vertex.texcoord) ((AxesBuilder.mk m).build_vertices sqrtF) =
      Except.map (List.map Vertex.texcoord) ((AxesBuilder.mk m').build_vertices sqrtF)) := by
  refine ⟨fun m m' U V => ?_, fun m m' => ?_, fun m m' => ?_, fun m m' => ?_⟩
  · simp only [SphereBuilder.build_vertices]
    split_ifs with h1 h2
    · rfl
    · rfl
    · simp only [Except.map, List.map_flatMap]
      exact congrArg Except.ok (congrArg (List.flatMap (List.range V)) (funext fun v =>
        congrArg (List.flatMap (List.range U)) (funext fun u =>
          sphere_cell_map_texcoord sinF cosF sqrtF piK m m' U V u v)))
  · simp only [CuboidBuilder.build_vertices, List.map_flatMap, List.map_map]
    exact congrArg _ (funext fun side => List.map_congr_left fun vert _ => rfl)
  · simp only [QuadBuilder.build_vertices, Except.map, List.map_map]
    exact congrArg _ (List.map_congr_left fun vert _ => rfl)
  · simp only [AxesBuilder.build_vertices, Except.map, List.map_flatMap, List.map_map]
    exact congrArg _ (congrArg _ (funext fun axis => List.map_congr_left fun vert _ => rfl))

/-- Interpretation of a column-major `Mat3` as a Mathlib matrix (row index
first). -/
def mat3ToMatrix (m : Mat3 K) : Matrix (Fin 3) (Fin 3) K :=
  !![m.x.x, m.y.x, m.z.x;
     m.x.y, m.y.y, m.z.y;
     m.x.z, m.y.z, m.z.z]

theorem mat3ToMatrix_mul (a b : Mat3 K) :
    mat3ToMatrix (a.mul b) = mat3ToMatrix a * mat3ToMatrix b := by
  ext i j
  fin_cases i <;> fin_cases j <;>
    simp [mat3ToMatrix, Mat3.mul, Mat3.mulVec, Vec3.smul, Vec3.add, Matrix.mul_apply,
      Fin.sum_univ_three] <;> ring

theorem mat3ToMatrix_one : mat3ToMatrix (Mat3.identity (K := K)) = 1 := by
  ext i j
  fin_cases i <;> fin_cases j <;>
    simp [mat3ToMatrix, Mat3.identity, Matrix.one_apply, Matrix.vecHead, Matrix.vecTail]

theorem mat3ToMatrix_transpose (m : Mat3 K) :
    mat3ToMatrix m.transpose = (mat3ToMatrix m).transpose := by
  ext i j
  fin_cases i <;> fin_cases j <;>
    simp [mat3ToMatrix, Mat3.transpose]

theorem det_mat3ToMatrix (m : Mat3 K) :
    (mat3ToMatrix m).det = m.determinant := by
  rw [Matrix.det_fin_three]
  simp [mat3ToMatrix, Mat3.determinant]
  ring

/-- The cross-product adjugate formula is a right inverse when the
determinant is nonzero. -/
theorem Mat3.mul_invertVal (m : Mat3 K) (h : m.determinant ≠ 0) :
    m.mul m.invertVal = Mat3.identity := by
  have h' : m.x.x * (m.y.y * m.z.z - m.z.y * m.y.z) -
      m.y.x * (m.x.y * m.z.z - m.z.y * m.x.z) +
      m.z.x * (m.x.y * m.y.z - m.y.y * m.x.z) ≠ 0 := h
  ext <;>
    simp only [Mat3.mul, Mat3.mulVec, Mat3.invertVal, Mat3.transpose, Mat3.identity,
      Mat3.determinant, Vec3.smul, Vec3.add, Vec3.cross] <;>
    field_simp <;>
    ring

/-- The cross-product adjugate formula is also a left inverse when the
determinant is nonzero. -/
theorem Mat3.invertVal_mul (m : Mat3 K) (h : m.determinant ≠ 0) :
    m.invertVal.mul m = Mat3.identity := by
  have h' : m.x.x * (m.y.y * m.z.z - m.z.y * m.y.z) -
      m.y.x * (m.x.y * m.z.z - m.z.y * m.x.z) +
      m.z.x * (m.x.y * m.y.z - m.y.y * m.x.z) ≠ 0 := h
  ext <;>
    simp only [Mat3.mul, Mat3.mulVec, Mat3.invertVal, Mat3.transpose, Mat3.identity,
      Mat3.determinant, Vec3.smul, Vec3.add, Vec3.cross] <;>
    field_simp <;>
    ring

theorem Mat3.transpose_mul (a b : Mat3 K) :
    (a.mul b).transpose = b.transpose.mul a.transpose := by
  ext <;>
    simp only [Mat3.mul, Mat3.mulVec, Mat3.transpose, Vec3.smul, Vec3.add] <;>
    ring

theorem Mat3.transpose_identity : (Mat3.identity (K := K)).transpose = Mat3.identity := rfl

theorem Mat3.mulVec_mul (a b : Mat3 K) (v : Vec3 K) :
    (a.mul b).mulVec v = a.mulVec (b.mulVec v) := by
  ext <;>
    simp only [Mat3.mul, Mat3.mulVec, Vec3.smul, Vec3.add] <;>
    ring

theorem Mat3.identity_mulVec (v : Vec3 K) :
    (Mat3.identity (K := K)).mulVec v = v := by
  ext <;>
    simp [Mat3.identity, Mat3.mulVec, Vec3.smul, Vec3.add]

theorem Mat3.mulVec_zero (a : Mat3 K) : a.mulVec Vec3.zero = Vec3.zero := by
  ext <;>
    simp [Mat3.mulVec, Vec3.smul, Vec3.add, Vec3.zero]

/-- The normal matrix always has a left inverse: the fallback is the
identity, and in the invertible case the transposed upper-left block
inverts it. -/
theorem normal_matrix_left_inverse (m : Mat4 K) :
    ∃ c : Mat3 K, c.mul (normal_matrix m) = Mat3.identity := by
  by_cases hd : (m.upperLeft3).determinant = 0
  · refine ⟨Mat3.identity, ?_⟩
    have hnm : normal_matrix m = Mat3.identity := by
      unfold normal_matrix
      rw [show Mat3.mk m.x.truncate m.y.truncate m.z.truncate = m.upperLeft3 from rfl]
      rw [Mat3.invert, if_pos hd]
      rfl
    rw [hnm]
    ext <;> simp [Mat3.mul, Mat3.mulVec, Mat3.identity, Vec3.smul, Vec3.add]
  · refine ⟨(m.upperLeft3).transpose, ?_⟩
    have hnm : normal_matrix m = (m.upperLeft3).invertVal.transpose := by
      unfold normal_matrix
      rw [show Mat3.mk m.x.truncate m.y.truncate m.z.truncate = m.upperLeft3 from rfl]
      rw [Mat3.invert, if_neg hd]
      rfl
    rw [hnm, ← Mat3.transpose_mul, Mat3.invertVal_mul _ hd, Mat3.transpose_identity]

/-- C6: the normal matrix used by every tessellator equals the transpose of
the inverse of the upper-left 3x3 block of the accumulated transform when
that block has nonzero determinant (is invertible), and the 3x3 identity
when it is singular; a singular block never makes tessellation fail (the
success of build_vertices depends only on the division counts). -/
theorem claim_C6_normal_matrix {K : Type} [Field K] [DecidableEq K]
    (m : Mat4 K) (sinF cosF sqrtF : K → K) (piK : K) (U V : ℕ) :
    (mat3ToMatrix (normal_matrix m) =
      if (mat3ToMatrix m.upperLeft3).det = 0 then 1
      else ((mat3ToMatrix m.upperLeft3)⁻¹).transpose) ∧
    (exceptIsOk ((SphereBuilder.mk m U V).build_vertices sinF cosF sqrtF piK) =
      (decide (3 ≤ U) && decide (2 ≤ V))) ∧
    (exceptIsOk ((QuadBuilder.mk m).build_vertices sqrtF) = true) ∧
    (exceptIsOk ((AxesBuilder.mk m).build_vertices sqrtF) = true) := by
  refine ⟨?_, ?_, rfl, rfl⟩
  · by_cases hd : (m.upperLeft3).determinant = 0
    · rw [if_pos (by rw [det_mat3ToMatrix]; exact hd)]
      have hnm : normal_matrix m = Mat3.identity := by
        unfold normal_matrix
        rw [show Mat3.mk m.x.truncate m.y.truncate m.z.truncate = m.upperLeft3 from rfl]
        rw [Mat3.invert, if_pos hd]
        rfl
      rw [hnm, mat3ToMatrix_one]
    · rw [if_neg (by rw [det_mat3ToMatrix]; exact hd)]
      have hnm : normal_matrix m = (m.upperLeft3).invertVal.transpose := by
        unfold normal_matrix
        rw [show Mat3.mk m.x.truncate m.y.truncate m.z.truncate = m.upperLeft3 from rfl]
        rw [Mat3.invert, if_neg hd]
        rfl
      have hinv : (mat3ToMatrix m.upperLeft3)⁻¹ = mat3ToMatrix (m.upperLeft3).invertVal := by
        apply Matrix.inv_eq_right_inv
        rw [← mat3ToMatrix_mul, Mat3.mul_invertVal _ hd, mat3ToMatrix_one]
      rw [hnm, mat3ToMatrix_transpose, hinv]
  · unfold SphereBuilder.build_vertices
    split_ifs with h1 h2
    · have hU : ¬ (3 ≤ U) := by simp only [SphereBuilder.u_divisions] at h1; omega
      simp [exceptIsOk, hU]
    · have hV : ¬ (2 ≤ V) := by simp only [SphereBuilder.v_divisions] at h2; omega
      simp [exceptIsOk, hV]
    · have hU : 3 ≤ U := by simp only [SphereBuilder.u_divisions] at h1; omega
      have hV : 2 ≤ V := by simp only [SphereBuilder.v_divisions] at h2; omega
      simp [exceptIsOk, hU, hV]

theorem Vec3.dot_self_pos (v : Vec3 ℝ) (hv : v ≠ Vec3.zero) : 0 < v.dot v := by
  rcases v with ⟨a, b, c⟩
  have h : ¬(a = 0 ∧ b = 0 ∧ c = 0) := by
    rintro ⟨h1, h2, h3⟩
    exact hv (by simp [Vec3.zero, h1, h2, h3])
  by_contra hc
  push_neg at hc
  simp only [Vec3.dot] at hc
  have ha : a = 0 := by nlinarith [mul_self_nonneg a, mul_self_nonneg b, mul_self_nonneg c]
  have hb : b = 0 := by nlinarith [mul_self_nonneg a, mul_self_nonneg b, mul_self_nonneg c]
  have hcz : c = 0 := by nlinarith [mul_self_nonneg a, mul_self_nonneg b, mul_self_nonneg c]
  exact h ⟨ha, hb, hcz⟩

/-- Over the reals, normalizing a nonzero vector yields a unit-magnitude
vector. -/
theorem Vec3.magnitude_normalize (v : Vec3 ℝ) (hv : v ≠ Vec3.zero) :
    Vec3.magnitude Real.sqrt (Vec3.normalize Real.sqrt v) = 1 := by
  have hd : 0 < v.dot v := Vec3.dot_self_pos v hv
  have hdot : (Vec3.normalize Real.sqrt v).dot (Vec3.normalize Real.sqrt v) =
      (1 / Real.sqrt (v.dot v)) ^ 2 * (v.dot v) := by
    rcases v with ⟨a, b, c⟩
    simp only [Vec3.normalize, Vec3.magnitude, Vec3.smul, Vec3.dot]
    ring
  have h1 : (1 / Real.sqrt (v.dot v)) ^ 2 * (v.dot v) = 1 := by
    rw [one_div, inv_pow, Real.sq_sqrt hd.le]
    field_simp
  unfold Vec3.magnitude
  rw [hdot, h1, Real.sqrt_one]

/-- Over the reals, normalizing a nonzero vector yields a nonzero vector. -/
theorem Vec3.normalize_ne_zero (v : Vec3 ℝ) (hv : v ≠ Vec3.zero) :
    Vec3.normalize Real.sqrt v ≠ Vec3.zero := by
  have hd : 0 < v.dot v := Vec3.dot_self_pos v hv
  have hs : 0 < Real.sqrt (v.dot v) := Real.sqrt_pos.mpr hd
  have hc : (1 : ℝ) / Real.sqrt (v.dot v) ≠ 0 := one_div_ne_zero hs.ne'
  intro h0
  apply hv
  rcases v with ⟨a, b, c⟩
  simp only [Vec3.normalize, Vec3.magnitude, Vec3.smul, Vec3.zero, Vec3.mk.injEq] at h0 ⊢
  obtain ⟨h1, h2, h3⟩ := h0
  exact ⟨(mul_eq_zero.mp h1).resolve_left hc, (mul_eq_zero.mp h2).resolve_left hc,
    (mul_eq_zero.mp h3).resolve_left hc⟩

/-- The normal matrix (inverse-transpose or identity fallback) is always
injective: it maps nonzero vectors to nonzero vectors. -/
theorem normal_matrix_mulVec_ne_zero (m : Mat4 K) (w : Vec3 K) (hw : w ≠ Vec3.zero) :
    (normal_matrix m).mulVec w ≠ Vec3.zero := by
  obtain ⟨c, hc⟩ := normal_matrix_left_inverse m
  intro h0
  apply hw
  have h1 : c.mulVec ((normal_matrix m).mulVec w) = w := by
    rw [← Mat3.mulVec_mul, hc, Mat3.identity_mulVec]
  rw [h0, Mat3.mulVec_zero] at h1
  exact h1.symm

/-- Transforming a nonzero vector by the normal matrix and renormalizing
yields a unit vector. -/
theorem magnitude_transformed_normal (m : Mat4 ℝ) (n : Vec3 ℝ) (hn : n ≠ Vec3.zero) :
    Vec3.magnitude Real.sqrt
      (Vec3.normalize Real.sqrt ((normal_matrix m).mulVec n)) = 1 :=
  Vec3.magnitude_normalize _ (normal_matrix_mulVec_ne_zero m n hn)

theorem axis_vector_ne_zero {K : Type} [Field K] (i : ℕ) (val : K) (h : val ≠ 0) :
    axis_vector i val ≠ Vec3.zero := by
  rcases i with _ | _ | i <;> simp [axis_vector, Vec3.zero, Vec3.mk.injEq, h]

/-- Latitude table entry 0 is `(sin 0, cos 0) = (0, 1)`. -/
theorem sphere_v_tab_zero (V : ℕ) :
    sphere_v_tab Real.sin Real.cos Real.pi V 0 = (0, 1) := by
  simp [sphere_v_tab, sin_cos]

/-- The sine entries of the latitude table are positive strictly between the
poles. -/
theorem sphere_v_tab_sin_pos (V j : ℕ) (h0 : 0 < j) (hjV : j < V) :
    0 < (sphere_v_tab Real.sin Real.cos Real.pi V j).1 := by
  have hVpos : (0 : ℝ) < V := by
    have : 0 < V := by omega
    exact_mod_cast this
  unfold sphere_v_tab sin_cos
  apply Real.sin_pos_of_pos_of_lt_pi
  · have hj : (0 : ℝ) < j := by exact_mod_cast h0
    exact mul_pos hj (div_pos Real.pi_pos hVpos)
  · have hj : (j : ℝ) < V := by exact_mod_cast hjV
    calc (j : ℝ) * (Real.pi / V) < V * (Real.pi / V) :=
          mul_lt_mul_of_pos_right hj (div_pos Real.pi_pos hVpos)
      _ = Real.pi := by field_simp

/-- The cosine entries of the latitude table are strictly decreasing on
`0 .. V`. -/
theorem sphere_v_tab_cos_strict (V j j' : ℕ) (hjj : j < j') (hj'V : j' ≤ V) :
    (sphere_v_tab Real.sin Real.cos Real.pi V j').2 <
      (sphere_v_tab Real.sin Real.cos Real.pi V j).2 := by
  have hVpos : (0 : ℝ) < V := by
    have : 0 < V := by omega
    exact_mod_cast this
  unfold sphere_v_tab sin_cos
  apply Real.cos_lt_cos_of_nonneg_of_le_pi
  · exact mul_nonneg (Nat.cast_nonneg j) (div_nonneg Real.pi_pos.le hVpos.le)
  · have hj : (j' : ℝ) ≤ V := by exact_mod_cast hj'V
    calc (j' : ℝ) * (Real.pi / V) ≤ V * (Real.pi / V) :=
          mul_le_mul_of_nonneg_right hj (div_pos Real.pi_pos hVpos).le
      _ = Real.pi := by field_simp
  · have hj : (j : ℝ) < j' := by exact_mod_cast hjj
    exact mul_lt_mul_of_pos_right hj (div_pos Real.pi_pos hVpos)

/-- Adjacent longitude samples are distinct points on the circle: their
(sin, cos) pairs can never both coincide (`U ≥ 3`, `u < U`). -/
theorem sphere_u_tab_succ_ne (U u : ℕ) (hU : 3 ≤ U) (hu : u < U) :
    ¬((sphere_u_tab Real.sin Real.cos Real.pi U (u + 1)).1 =
        (sphere_u_tab Real.sin Real.cos Real.pi U u).1 ∧
      (sphere_u_tab Real.sin Real.cos Real.pi U (u + 1)).2 =
        (sphere_u_tab Real.sin Real.cos Real.pi U u).2) := by
  have hUpos : (0 : ℝ) < U := by
    have : 0 < U := by omega
    exact_mod_cast this
  have hθpos : (0 : ℝ) < 2 * Real.pi / U :=
    div_pos (by nlinarith [Real.pi_pos]) hUpos
  have hθlt : 2 * Real.pi / U < 2 * Real.pi := by
    rw [div_lt_iff hUpos]
    have hU3 : (3 : ℝ) ≤ U := by exact_mod_cast hU
    nlinarith [Real.pi_pos]
  have hmodu : u % U = u := Nat.mod_eq_of_lt hu
  rintro ⟨hs, hc⟩
  unfold sphere_u_tab sin_cos at hs hc
  dsimp only at hs hc
  rw [hmodu] at hs hc
  by_cases hcase : u + 1 < U
  · rw [Nat.mod_eq_of_lt hcase] at hs hc
    have hcos1 : Real.cos ((((u + 1 : ℕ) : ℝ)) * (2 * Real.pi / U) -
        ((u : ℕ) : ℝ) * (2 * Real.pi / U)) = 1 := by
      rw [Real.cos_sub, hs, hc]
      have := Real.sin_sq_add_cos_sq (((u : ℕ) : ℝ) * (2 * Real.pi / U))
      nlinarith [this]
    have hdiff : (((u + 1 : ℕ) : ℝ)) * (2 * Real.pi / U) -
        ((u : ℕ) : ℝ) * (2 * Real.pi / U) = 2 * Real.pi / U := by
      push_cast
      ring
    rw [hdiff] at hcos1
    have h0 := (Real.cos_eq_one_iff_of_lt_of_lt (by linarith) hθlt).mp hcos1
    exact absurd h0 hθpos.ne'
  · have huU : u + 1 = U := by omega
    have hmod1 : (u + 1) % U = 0 := by rw [huU]; exact Nat.mod_self U
    rw [hmod1] at hs hc
    have hu2 : (2 : ℝ) ≤ u := by
      have : 2 ≤ u := by omega
      exact_mod_cast this
    have huθpos : 0 < ((u : ℕ) : ℝ) * (2 * Real.pi / U) := by
      apply mul_pos _ hθpos
      linarith
    have huθlt : ((u : ℕ) : ℝ) * (2 * Real.pi / U) < 2 * Real.pi := by
      have huu : ((u : ℕ) : ℝ) < U := by exact_mod_cast hu
      calc ((u : ℕ) : ℝ) * (2 * Real.pi / U) < U * (2 * Real.pi / U) :=
            mul_lt_mul_of_pos_right huu hθpos
        _ = 2 * Real.pi := by field_simp
    have hcos1 : Real.cos (((0 : ℕ) : ℝ) * (2 * Real.pi / U) -
        ((u : ℕ) : ℝ) * (2 * Real.pi / U)) = 1 := by
      rw [Real.cos_sub, hs, hc]
      have := Real.sin_sq_add_cos_sq (((u : ℕ) : ℝ) * (2 * Real.pi / U))
      nlinarith [this]
    have hdiff : ((0 : ℕ) : ℝ) * (2 * Real.pi / U) -
        ((u : ℕ) : ℝ) * (2 * Real.pi / U) =
        -(((u : ℕ) : ℝ) * (2 * Real.pi / U)) := by
      push_cast
      ring
    rw [hdiff] at hcos1
    have h0 := (Real.cos_eq_one_iff_of_lt_of_lt (by linarith) (by linarith)).mp hcos1
    have : ((u : ℕ) : ℝ) * (2 * Real.pi / U) = 0 := by linarith [neg_eq_zero.mp h0]
    exact absurd this huθpos.ne'

/-- The first triangle of every sphere cell is nondegenerate: its edge cross
product is nonzero, for every valid division configuration and every cell. -/
theorem sphere_face_cross_ne_zero (U V u v : ℕ) (hU : 3 ≤ U) (hV : 2 ≤ V)
    (hu : u < U) (hv : v < V) :
    sphere_face_cross Real.sin Real.cos Real.pi U V u v ≠ Vec3.zero := by
  intro h0
  by_cases hv0 : v = 0
  · subst hv0
    have hfc : sphere_face_cross Real.sin Real.cos Real.pi U V u 0 =
        ((sphere_corners Real.sin Real.cos Real.pi U V u 0 1).sub
          (sphere_corners Real.sin Real.cos Real.pi U V u 0 2)).cross
        ((sphere_corners Real.sin Real.cos Real.pi U V u 0 3).sub
          (sphere_corners Real.sin Real.cos Real.pi U V u 0 2)) := rfl
    rw [hfc] at h0
    simp only [sphere_corners, sphere_v_tab_zero, Vec3.sub, Vec3.cross, Vec3.zero,
      Vec3.mk.injEq, mul_zero, mul_one, zero_mul, one_mul, sub_zero, zero_sub,
      sub_self] at h0
    obtain ⟨hx, hy, hz⟩ := h0
    have hc1 : (sphere_v_tab Real.sin Real.cos Real.pi V 1).2 - 1 ≠ 0 := by
      have h := sphere_v_tab_cos_strict V 0 1 (by omega) (by omega)
      rw [sphere_v_tab_zero] at h
      exact sub_ne_zero_of_ne (ne_of_lt h)
    have hs1 : 0 < (sphere_v_tab Real.sin Real.cos Real.pi V 1).1 :=
      sphere_v_tab_sin_pos V 1 (by omega) (by omega)
    have key1 : ((sphere_v_tab Real.sin Real.cos Real.pi V 1).2 - 1) *
        (sphere_v_tab Real.sin Real.cos Real.pi V 1).1 *
        ((sphere_u_tab Real.sin Real.cos Real.pi U u).1 -
          (sphere_u_tab Real.sin Real.cos Real.pi U (u + 1)).1) = 0 := by
      linear_combination hx
    have key2 : ((sphere_v_tab Real.sin Real.cos Real.pi V 1).2 - 1) *
        (sphere_v_tab Real.sin Real.cos Real.pi V 1).1 *
        ((sphere_u_tab Real.sin Real.cos Real.pi U (u + 1)).2 -
          (sphere_u_tab Real.sin Real.cos Real.pi U u).2) = 0 := by
      linear_combination hz
    have hmul : ((sphere_v_tab Real.sin Real.cos Real.pi V 1).2 - 1) *
        (sphere_v_tab Real.sin Real.cos Real.pi V 1).1 ≠ 0 :=
      mul_ne_zero hc1 hs1.ne'
    have hse : (sphere_u_tab Real.sin Real.cos Real.pi U (u + 1)).1 =
        (sphere_u_tab Real.sin Real.cos Real.pi U u).1 := by
      have := (mul_eq_zero.mp key1).resolve_left hmul
      linarith [sub_eq_zero.mp this]
    have hce : (sphere_u_tab Real.sin Real.cos Real.pi U (u + 1)).2 =
        (sphere_u_tab Real.sin Real.cos Real.pi U u).2 := by
      have := (mul_eq_zero.mp key2).resolve_left hmul
      linarith [sub_eq_zero.mp this]
    exact sphere_u_tab_succ_ne U u hU hu ⟨hse, hce⟩
  · have hoff : (sphere_offset_count V v).1 = 0 := by
      unfold sphere_offset_count
      rw [if_neg hv0]
      split_ifs <;> rfl
    have hfc : sphere_face_cross Real.sin Real.cos Real.pi U V u v =
        ((sphere_corners Real.sin Real.cos Real.pi U V u v
            (sphere_indices ((sphere_offset_count V v).1 + 1))).sub
          (sphere_corners Real.sin Real.cos Real.pi U V u v
            (sphere_indices (sphere_offset_count V v).1))).cross
        ((sphere_corners Real.sin Real.cos Real.pi U V u v
            (sphere_indices ((sphere_offset_count V v).1 + 2))).sub
          (sphere_corners Real.sin Real.cos Real.pi U V u v
            (sphere_indices (sphere_offset_count V v).1))) := rfl
    rw [hfc, hoff] at h0
    have hi0 : sphere_indices (0 + 0) = 0 := rfl
    have hi1 : sphere_indices (0 + 1) = 1 := rfl
    have hi2 : sphere_indices (0 + 2) = 2 := rfl
    rw [hi1, hi2, show sphere_indices 0 = 0 from rfl] at h0
    simp only [sphere_corners, Vec3.sub, Vec3.cross, Vec3.zero, Vec3.mk.injEq,
      mul_zero, zero_mul, sub_self, sub_zero, zero_sub] at h0
    obtain ⟨hx, hy, hz⟩ := h0
    have hcd : (sphere_v_tab Real.sin Real.cos Real.pi V (v + 1)).2 -
        (sphere_v_tab Real.sin Real.cos Real.pi V v).2 ≠ 0 := by
      have h := sphere_v_tab_cos_strict V v (v + 1) (by omega) (by omega)
      exact sub_ne_zero_of_ne (ne_of_lt h)
    have hsv : 0 < (sphere_v_tab Real.sin Real.cos Real.pi V v).1 :=
      sphere_v_tab_sin_pos V v (by omega) hv
    have key1 : ((sphere_v_tab Real.sin Real.cos Real.pi V (v + 1)).2 -
        (sphere_v_tab Real.sin Real.cos Real.pi V v).2) *
        (sphere_v_tab Real.sin Real.cos Real.pi V v).1 *
        ((sphere_u_tab Real.sin Real.cos Real.pi U u).1 -
          (sphere_u_tab Real.sin Real.cos Real.pi U (u + 1)).1) = 0 := by
      linear_combination hx
    have key2 : ((sphere_v_tab Real.sin Real.cos Real.pi V (v + 1)).2 -
        (sphere_v_tab Real.sin Real.cos Real.pi V v).2) *
        (sphere_v_tab Real.sin Real.cos Real.pi V v).1 *
        ((sphere_u_tab Real.sin Real.cos Real.pi U (u + 1)).2 -
          (sphere_u_tab Real.sin Real.cos Real.pi U u).2) = 0 := by
      linear_combination hz
    have hmul : ((sphere_v_tab Real.sin Real.cos Real.pi V (v + 1)).2 -
        (sphere_v_tab Real.sin Real.cos Real.pi V v).2) *
        (sphere_v_tab Real.sin Real.cos Real.pi V v).1 ≠ 0 :=
      mul_ne_zero hcd hsv.ne'
    have hse : (sphere_u_tab Real.sin Real.cos Real.pi U (u + 1)).1 =
        (sphere_u_tab Real.sin Real.cos Real.pi U u).1 := by
      have := (mul_eq_zero.mp key1).resolve_left hmul
      linarith [sub_eq_zero.mp this]
    have hce : (sphere_u_tab Real.sin Real.cos Real.pi U (u + 1)).2 =
        (sphere_u_tab Real.sin Real.cos Real.pi U u).2 := by
      have := (mul_eq_zero.mp key2).resolve_left hmul
      linarith [sub_eq_zero.mp this]
    exact sphere_u_tab_succ_ne U u hU hu ⟨hse, hce⟩

/-- Every vertex emitted by the sphere tessellator has a unit normal. -/
theorem sphere_unit_normals (b : SphereBuilder ℝ) :
    List.Forall (fun vtx => Vec3.magnitude Real.sqrt vtx.normal = 1)
      (exceptList (b.build_vertices Real.sin Real.cos Real.sqrt Real.pi)) := by
  rw [List.forall_iff_forall_mem]
  intro vtx hmem
  unfold SphereBuilder.build_vertices at hmem
  by_cases h1 : b.u_divisions < 3
  · simp [h1, exceptList] at hmem
  by_cases h2 : b.v_divisions < 2
  · simp [h1, h2, exceptList] at hmem
  simp only [h1, h2, if_false, exceptList] at hmem
  rw [List.mem_flatMap] at hmem
  obtain ⟨v, hvmem, hmem⟩ := hmem
  rw [List.mem_flatMap] at hmem
  obtain ⟨u, humem, hmem⟩ := hmem
  rw [List.mem_range] at hvmem humem
  unfold sphere_cell at hmem
  rw [List.mem_map] at hmem
  obtain ⟨k, _, rfl⟩ := hmem
  show Vec3.magnitude Real.sqrt
    (Vec3.normalize Real.sqrt ((normal_matrix b.matrix).mulVec
      (Vec3.normalize Real.sqrt
        (sphere_face_cross Real.sin Real.cos Real.pi b.u_divisions b.v_divisions u v)))) = 1
  exact magnitude_transformed_normal b.matrix _
    (Vec3.normalize_ne_zero _
      (sphere_face_cross_ne_zero b.u_divisions b.v_divisions u v
        (by omega) (by omega) humem hvmem))

/-- Every vertex emitted by the cuboid tessellator has a unit normal. -/
theorem cuboid_unit_normals (b : CuboidBuilder ℝ) :
    List.Forall (fun vtx => Vec3.magnitude Real.sqrt vtx.normal = 1)
      (b.build_vertices Real.sqrt) := by
  rw [List.forall_iff_forall_mem]
  intro vtx hmem
  unfold CuboidBuilder.build_vertices at hmem
  rw [List.mem_flatMap] at hmem
  obtain ⟨side, _, hmem⟩ := hmem
  rw [List.mem_map] at hmem
  obtain ⟨vert, _, rfl⟩ := hmem
  show Vec3.magnitude Real.sqrt
    (Vec3.normalize Real.sqrt ((normal_matrix b.matrix).mulVec
      (axis_vector (side / 2) ((((side % 2) * 2 : ℕ) : ℝ) - 1)))) = 1
  apply magnitude_transformed_normal
  apply axis_vector_ne_zero
  rcases Nat.mod_two_eq_zero_or_one side with h | h <;> rw [h] <;> norm_num

/-- Every vertex emitted by the quad tessellator has a unit normal. -/
theorem quad_unit_normals (b : QuadBuilder ℝ) :
    List.Forall (fun vtx => Vec3.magnitude Real.sqrt vtx.normal = 1)
      (exceptList (b.build_vertices Real.sqrt)) := by
  rw [List.forall_iff_forall_mem]
  intro vtx hmem
  unfold QuadBuilder.build_vertices at hmem
  simp only [exceptList] at hmem
  rw [List.mem_map] at hmem
  obtain ⟨vert, _, rfl⟩ := hmem
  show Vec3.magnitude Real.sqrt
    (Vec3.normalize Real.sqrt ((normal_matrix b.matrix).mulVec ⟨0, 0, -1⟩)) = 1
  apply magnitude_transformed_normal
  simp [Vec3.zero, Vec3.mk.injEq]

/-- Every vertex emitted by the axes tessellator has a unit normal. -/
theorem axes_unit_normals (b : AxesBuilder ℝ) :
    List.Forall (fun vtx => Vec3.magnitude Real.sqrt vtx.normal = 1)
      (exceptList (b.build_vertices Real.sqrt)) := by
  rw [List.forall_iff_forall_mem]
  intro vtx hmem
  unfold AxesBuilder.build_vertices at hmem
  simp only [exceptList] at hmem
  rw [List.mem_flatMap] at hmem
  obtain ⟨axis, _, hmem⟩ := hmem
  rw [List.mem_map] at hmem
  obtain ⟨vert, _, rfl⟩ := hmem
  show Vec3.magnitude Real.sqrt
    (Vec3.normalize Real.sqrt ((normal_matrix b.matrix).mulVec (axis_vector axis 1))) = 1
  exact magnitude_transformed_normal _ _ (axis_vector_ne_zero axis 1 one_ne_zero)

/-- C8: over the reals, every vertex successfully emitted by any builder of
any shape — with any accumulated transform, including non-uniform scales —
carries a normal of unit magnitude, because the transformed normal is
renormalized before being stored. -/
theorem claim_C8_unit_normals :
    (∀ b : CuboidBuilder ℝ,
      List.Forall (fun vtx => Vec3.magnitude Real.sqrt vtx.normal = 1)
        (b.build_vertices Real.sqrt)) ∧
    (∀ b : QuadBuilder ℝ,
      List.Forall (fun vtx => Vec3.magnitude Real.sqrt vtx.normal = 1)
        (exceptList (b.build_vertices Real.sqrt))) ∧
    (∀ b : AxesBuilder ℝ,
      List.Forall (fun vtx => Vec3.magnitude Real.sqrt vtx.normal = 1)
        (exceptList (b.build_vertices Real.sqrt))) ∧
    (∀ b : SphereBuilder ℝ,
      List.Forall (fun vtx => Vec3.magnitude Real.sqrt vtx.normal = 1)
        (exceptList (b.build_vertices Real.sin Real.cos Real.sqrt Real.pi))) :=
  ⟨cuboid_unit_normals, quad_unit_normals, axes_unit_normals, sphere_unit_normals⟩

end GliumShapes
